import Mathlib

/-!
Verification of the svg2nvg document-to-statement compiler
(`svg2nvg/parser.py`) against its specification.

The development shallowly embeds the parser: Python dictionaries become
association lists with dict update/lookup semantics, the XML element tree
becomes an inductive `Element`, Python `float` values become exact
rationals over the decimal grammar the inputs use, and each call the
parser makes into its generator collaborator is recorded as one opaque
`Stmt` in an ordered trace.  Fatal errors (`exit(1)` and uncaught Python
exceptions) are modelled with `Except`.
-/

set_option maxRecDepth 10000

deriving instance DecidableEq for Except

/-- Python attribute dictionaries: string keys to string values.
Concrete dictionaries never repeat a key; lookup takes the first match. -/
abbrev Attrib := List (String × String)

/-- Python `k in d` / `d[k]` (as an option). -/
def lookupA : Attrib → String → Option String
  | [], _ => none
  | (k1, v1) :: rest, k => if k1 = k then some v1 else lookupA rest k

/-- Python `d.get(k, dflt)`. -/
def getAttrD (d : Attrib) (k dflt : String) : String :=
  (lookupA d k).getD dflt

/-- Python `d[k] = v`: replace the value of an existing key in place,
otherwise append the new binding. -/
def setKey : Attrib → String → String → Attrib
  | [], k, v => [(k, v)]
  | (k1, v1) :: rest, k, v =>
    if k1 = k then (k, v) :: rest else (k1, v1) :: setKey rest k v

/-- Python `d.update(other)`: every binding of `other` is written into `d`,
overwriting values of keys `d` already holds (parser.py line 147 and 143). -/
def dictUpdate (d : Attrib) : Attrib → Attrib
  | [] => d
  | (k, v) :: rest => dictUpdate (setKey d k v) rest

/-- An XML element as the parser sees it: a (namespace-qualified) tag,
an attribute dictionary and the child elements in document order. -/
inductive Element where
  | mk (tag : String) (attrib : Attrib) (children : List Element)

/-- The tag field of an element. -/
def Element.tagName : Element → String
  | .mk t _ _ => t

/-- Embedding of `get_element_tag` (parser.py line 68), that is
`element.tag.rsplit('}')[1]`.
Splitting on every brace and indexing at 1 yields the second chunk; a tag
without a brace raises IndexError, modelled as `none`. -/
def getElementTag (tag : String) : Option String :=
  (tag.splitOn "\x7d").get? 1

/-- Fatal outcomes: `exit(1)` calls and uncaught Python exceptions. -/
inductive Err where
  /-- root tag is not `svg` (parser.py lines 315-317). -/
  | structural (tag : String)
  /-- unsupported element tag (parser.py lines 103-105). -/
  | unsupportedTag (tag : String)
  /-- a zero-arity path command received parameters (lines 178-181). -/
  | pathZeroParams (c : Char) (params : List String)
  /-- parameter count not a multiple of the command arity (lines 185-188). -/
  | pathArity (c : Char) (arity actual : Nat)
  /-- uncaught KeyError on a required attribute. -/
  | missingKey (k : String)
  /-- viewBox with fewer than four space-separated tokens (IndexError). -/
  | missingDimension
  /-- uncaught ValueError from `float()` on a non-numeric string. -/
  | valueError
  /-- `get_element_tag` IndexError: tag contains no brace. -/
  | tagFormat
  /-- dispatch to a helper with the wrong signature (uncaught TypeError),
  or unbounded self-dispatch (uncaught RecursionError). -/
  | typeError (tag : String)
  /-- Python recursion limit exhausted during tree descent. -/
  | recursionLimit
  deriving DecidableEq

/-- Resolved fill arguments (`__parse_fill`, parser.py lines 115-135). -/
structure FillArgs where
  fill : String
  fillOpacity : ℚ
  deriving DecidableEq

/-- Resolved stroke arguments (`__parse_stroke`, parser.py lines 262-295).
`none` fields are keys absent from the Python `args` dictionary. -/
structure StrokeArgs where
  stroke : String
  strokeOpacity : ℚ
  linecap : Option String
  linejoin : Option String
  miterlimit : Option String
  width : Option String
  deriving DecidableEq

/-- Modelled from the spec: generator.py is not part of the sources, so
per section 6 of the spec the Emitter is an opaque write-only sink; each
generator call the parser makes is recorded as one statement of the
ordered output trace. -/
inductive Stmt where
  | beginElement (tag : String)
  | endElement (tag : String)
  | bounds (x y width height : String)
  | rect (x y width height : String)
  | circle (attrs : Attrib)
  | ellipse (attrs : Attrib)
  | line (x1 y1 x2 y2 : String)
  | polygon (attrs : Attrib)
  | polyline (attrs : Attrib)
  | beginPathCommands
  | pathCommand (c : Char) (params : List String)
  | endPathCommands
  | fill (color : String) (opacity : ℚ)
  | stroke (args : StrokeArgs)
  | transform (t : String)
  | defineGradient (id : Option String)
  deriving DecidableEq

/-- Whether a statement is a transform statement. -/
def Stmt.isTransform : Stmt → Bool
  | .transform _ => true
  | _ => false

/-! ## Numeric helpers -/

/-- Longest run of ASCII digits at the head of the character list,
together with the remainder. -/
def digitRun : List Char → List Char × List Char
  | [] => ([], [])
  | c :: cs =>
    if c.isDigit then
      let p := digitRun cs
      (c :: p.1, p.2)
    else ([], c :: cs)

/-- Value of a digit run. -/
def digitsVal (ds : List Char) : Nat :=
  ds.foldl (fun a c => a * 10 + (c.toNat - 48)) 0

/-- Python `float()` on the decimal strings this program feeds it:
optional sign, then digits with at most one decimal point.  Exact
rational arithmetic stands in for the binary floats; the opacity values
this program multiplies are represented exactly. -/
def parseFloat (s : String) : Option ℚ :=
  let p0 : ℚ × List Char :=
    match s.toList with
    | '-' :: r => (-1, r)
    | '+' :: r => (1, r)
    | cs => (1, cs)
  let sgn := p0.1
  let p1 := digitRun p0.2
  let ip := p1.1
  match p1.2 with
  | [] => if ip = [] then none else some (sgn * (digitsVal ip : ℚ))
  | '.' :: r =>
    let p2 := digitRun r
    let fp := p2.1
    if p2.2 = [] then
      if ip = [] ∧ fp = [] then none
      else some (sgn * ((digitsVal ip : ℚ) + (digitsVal fp : ℚ) / ((10 : ℚ) ^ fp.length)))
    else none
  | _ => none

/-- First alternative of the stroke-width regex (parser.py line 287),
`[-+]?\d*\.\d+`, attempted at the head of the list. -/
def tryAltFrac (cs : List Char) : Option (List Char) :=
  let p0 : List Char × List Char :=
    match cs with
    | c :: rest => if c = '-' ∨ c = '+' then ([c], rest) else ([], cs)
    | [] => ([], [])
  let p1 := digitRun p0.2
  match p1.2 with
  | '.' :: r =>
    let p2 := digitRun r
    if p2.1 = [] then none else some (p0.1 ++ p1.1 ++ '.' :: p2.1)
  | _ => none

/-- Second alternative of the regex, `\d+`, attempted at the head. -/
def tryAltInt (cs : List Char) : Option (List Char) :=
  let p := digitRun cs
  if p.1 = [] then none else some p.1

/-- Leftmost match of `[-+]?\d*\.\d+|\d+` (re.findall's first result at
parser.py line 287): positions are tried left to right, and at each
position the fractional alternative is preferred. -/
def firstNumber : List Char → Option String
  | [] => none
  | c :: cs =>
    match tryAltFrac (c :: cs) with
    | some m => some (String.mk m)
    | none =>
      match tryAltInt (c :: cs) with
      | some m => some (String.mk m)
      | none => firstNumber cs

/-! ## Inline style lookup (`__parse_style`, parser.py lines 297-304) -/

/-- Capture of the non-greedy `(.*?);`: the characters before the first
semicolon, failing on end of input or a newline (which `.` never
matches). -/
def takeUntilSemi : List Char → Option (List Char)
  | [] => none
  | c :: cs =>
    if c = ';' then some []
    else if c = '\n' then none
    else (takeUntilSemi cs).map (fun l => c :: l)

/-- Match a literal pattern at the head of the input, returning the rest. -/
def dropPrefixCh : List Char → List Char → Option (List Char)
  | [], rest => some rest
  | _ :: _, [] => none
  | p :: ps, c :: cs => if p = c then dropPrefixCh ps cs else none

/-- Search as in `re.search(r'name:(.*?);', style)`: scan positions
left to right; at
the first position where the literal `name:` matches and a semicolon
follows on the same line, return the captured value. -/
def styleSearch (pat : List Char) : List Char → Option (List Char)
  | [] => none
  | c :: cs =>
    match dropPrefixCh pat (c :: cs) with
    | some rest =>
      match takeUntilSemi rest with
      | some v => some v
      | none => styleSearch pat cs
    | none => styleSearch pat cs

/-- Embedding of `__parse_style`: value of `name` inside the `style`
attribute text,
or the literal default `"none"`. -/
def parseStyleValue (a : Attrib) (name : String) : String :=
  match lookupA a "style" with
  | none => "none"
  | some st =>
    match styleSearch (name.toList ++ [':']) st.toList with
    | some v => String.mk v
    | none => "none"

/-! ## Fill resolution (`__parse_fill`, parser.py lines 115-135) -/

/-- Attribute read as a float with default 1:
`float(element.attrib.get(name, 1))`. -/
def floatAttr (a : Attrib) (name : String) : Option ℚ :=
  match lookupA a name with
  | none => some 1
  | some s => parseFloat s

/-- The resolved fill value: the `fill` attribute if present, else the
style lookup (parser.py lines 118-121). -/
def resolvedFill (a : Attrib) : String :=
  match lookupA a "fill" with
  | some f => f
  | none => parseStyleValue a "fill"

/-- Three-digit hex shorthand expansion (parser.py lines 128-130). -/
def expandHexShorthand (s : String) : String :=
  match s.toList with
  | ['#', c1, c2, c3] => String.mk ['#', c1, c1, c2, c2, c3, c3]
  | _ => s

/-- Embedding of `__parse_fill`: `ok none` is the empty dictionary
(no statement);
`valueError` models an uncaught `float()` ValueError. -/
def parseFill (a : Attrib) : Except Err (Option FillArgs) :=
  let fill := resolvedFill a
  if fill = "none" ∨ fill = "transparent" then .ok none
  else
    match floatAttr a "opacity", floatAttr a "fill-opacity" with
    | some o, some fo => .ok (some ⟨expandHexShorthand fill, o * fo⟩)
    | _, _ => .error .valueError

/-- The `attribute` decorator applied to `__parse_fill`: a non-empty
result dictionary is forwarded to the generator as one fill statement. -/
def fillStmts (a : Attrib) : Except Err (List Stmt) :=
  match parseFill a with
  | .error e => .error e
  | .ok none => .ok []
  | .ok (some r) => .ok [Stmt.fill r.fill r.fillOpacity]

/-! ## Stroke resolution (`__parse_stroke`, parser.py lines 262-295) -/

/-- The resolved stroke value (parser.py lines 265-268). -/
def resolvedStrokeColor (a : Attrib) : String :=
  match lookupA a "stroke" with
  | some s => s
  | none => parseStyleValue a "stroke"

/-- One iteration of the sub-attribute loop (parser.py lines 277-284):
an explicit attribute wins; otherwise the style value is used unless it
is the literal `"none"`. -/
def strokeSubAttr (a : Attrib) (name : String) : Option String :=
  match lookupA a name with
  | some v => some v
  | none =>
    let v := parseStyleValue a name
    if v ≠ "none" then some v else none

/-- The stroke-width after numeric extraction (parser.py lines 286-289):
if present, its first numeric substring replaces it when one exists. -/
def resolvedStrokeWidth (a : Attrib) : Option String :=
  (strokeSubAttr a "stroke-width").map (fun w =>
    match firstNumber w.toList with
    | some n => n
    | none => w)

/-- Embedding of `__parse_stroke`: `ok none` is the discarded (empty)
result for
sub-pixel widths (parser.py lines 291-292). -/
def parseStroke (a : Attrib) : Except Err (Option StrokeArgs) :=
  let stroke := resolvedStrokeColor a
  match floatAttr a "opacity", floatAttr a "stroke-opacity" with
  | some o, some so =>
    let args : StrokeArgs :=
      { stroke := stroke
        strokeOpacity := o * so
        linecap := strokeSubAttr a "stroke-linecap"
        linejoin := strokeSubAttr a "stroke-linejoin"
        miterlimit := strokeSubAttr a "stroke-miterlimit"
        width := resolvedStrokeWidth a }
    match args.width with
    | some w =>
      match parseFloat w with
      | none => .error .valueError
      | some q => if q < 1 then .ok none else .ok (some args)
    | none => .ok (some args)
  | _, _ => .error .valueError

/-- The `attribute` decorator applied to `__parse_stroke`. -/
def strokeStmts (a : Attrib) : Except Err (List Stmt) :=
  match parseStroke a with
  | .error e => .error e
  | .ok none => .ok []
  | .ok (some r) => .ok [Stmt.stroke r]

/-! ## Path tokenizer (`__parse_path`, parser.py lines 165-240) -/

/-- The supported commands and their arities (parser.py lines 28-29). -/
def pathCommands : List (Char × Nat) :=
  [('A', 7), ('C', 6), ('H', 1), ('L', 2), ('M', 2), ('Q', 4),
   ('S', 4), ('T', 2), ('V', 1), ('Z', 0)]

/-- Upper- and lowercase command letters (parser.py lines 199-200). -/
def commandChars : List Char :=
  ['A', 'C', 'H', 'L', 'M', 'Q', 'S', 'T', 'V', 'Z',
   'a', 'c', 'h', 'l', 'm', 'q', 's', 't', 'v', 'z']

/-- The for-else lookup in `execute_command` (parser.py lines 170-175):
the loop breaks at a matching entry; when the letter is unknown the loop
variable is left at the final entry `('Z', 0)` (the accompanying print
does not halt). -/
def lookupCommand (c : Char) : Char × Nat :=
  (pathCommands.find? (fun p => p.1 = c.toUpper)).getD ('Z', 0)

/-- The slicing loop of `execute_command` (parser.py lines 189-192):
take `a` parameters per iteration until none remain.  The fuel argument
bounds the iteration count; `ps.length` suffices since every iteration
with `a ≥ 1` removes at least one parameter. -/
def chunkFuel (a : Nat) : Nat → List String → List (List String)
  | _, [] => []
  | 0, _ :: _ => []
  | fuel + 1, p :: rest =>
    ((p :: rest).take a) :: chunkFuel a fuel ((p :: rest).drop a)

/-- The arity-sized slices of the parameter list, in order. -/
def chunkParams (a : Nat) (ps : List String) : List (List String) :=
  chunkFuel a ps.length ps

/-- Embedding of `execute_command` (parser.py lines 167-192),
returning the
`path_command` statements it sends to the generator. -/
def executeCommand (cmd : Option Char) (params : List String) :
    Except Err (List Stmt) :=
  match cmd with
  | none => .ok []
  | some c =>
    let a := (lookupCommand c).2
    if a = 0 then
      if params ≠ [] then .error (.pathZeroParams c params)
      else .ok [Stmt.pathCommand c []]
    else
      if params.length % a ≠ 0 then .error (.pathArity c a params.length)
      else .ok ((chunkParams a params).map (Stmt.pathCommand c))

/-- The mutable locals of the scanning loop (parser.py lines 194-197)
plus the statements emitted so far. -/
structure ScanState where
  params : List String
  command : Option Char
  foundDec : Bool
  paramString : List Char
  stmts : List Stmt
  deriving DecidableEq

/-- The flush of a pending parameter at a command letter (parser.py
lines 207-209) and at the end of the scan (lines 233-235). -/
def flushParam (s : ScanState) : ScanState :=
  if s.paramString ≠ [] then
    { s with params := s.params ++ [String.mk s.paramString], paramString := [] }
  else s

/-- The flush of a pending parameter at a separator (parser.py lines
215-218), which also clears the decimal-point flag. -/
def flushParamSep (s : ScanState) : ScanState :=
  if s.paramString ≠ [] then
    { s with params := s.params ++ [String.mk s.paramString], paramString := [],
             foundDec := false }
  else s

/-- One iteration of the character loop (parser.py lines 203-231). -/
def scanStep (s : ScanState) (c : Char) : Except Err ScanState :=
  if c = '\n' ∨ c = '\t' then .ok s
  else if c ∈ commandChars then
    match executeCommand (flushParam s).command (flushParam s).params with
    | .error e => .error e
    | .ok new =>
      .ok { flushParam s with stmts := (flushParam s).stmts ++ new,
                              command := some c, params := [], foundDec := false }
  else if c = ' ' ∨ c = ',' ∨ c = '-' then
    if c = '-' then
      .ok { flushParamSep s with
              paramString := (flushParamSep s).paramString ++ ['-'],
              foundDec := false }
    else .ok (flushParamSep s)
  else if c = '.' then
    if s.foundDec then
      .ok { s with params := s.params ++ [String.mk s.paramString],
                   paramString := ['.'] }
    else .ok { s with foundDec := true, paramString := s.paramString ++ ['.'] }
  else if s.command.isSome then
    .ok { s with paramString := s.paramString ++ [c] }
  else .ok s

/-- The character loop over the whole path data. -/
def scanChars (s : ScanState) : List Char → Except Err ScanState
  | [] => .ok s
  | c :: cs =>
    match scanStep s c with
    | .error e => .error e
    | .ok s1 => scanChars s1 cs

/-- The tokenizing part of `__parse_path` (parser.py lines 194-237):
begin-path statement, the scan, the final flush and command execution,
and the end-path statement. -/
def parsePathData (d : String) : Except Err (List Stmt) :=
  match scanChars ⟨[], none, false, [], [Stmt.beginPathCommands]⟩ d.toList with
  | .error e => .error e
  | .ok s =>
    match executeCommand (flushParam s).command (flushParam s).params with
    | .error e => .error e
    | .ok new => .ok ((flushParam s).stmts ++ new ++ [Stmt.endPathCommands])

/-! ## Element handlers -/

/-- The `element` decorator: begin/end statements around the handler. -/
def bracket (t : String) (r : Except Err (List Stmt)) :
    Except Err (List Stmt) :=
  match r with
  | .error e => .error e
  | .ok ss => .ok (Stmt.beginElement t :: (ss ++ [Stmt.endElement t]))

/-- Embedding of `__parse_transform` (parser.py lines 306-310)
through the
`attribute` decorator: an empty result emits nothing. -/
def transformStmts (a : Attrib) : List Stmt :=
  match lookupA a "transform" with
  | none => []
  | some t => [Stmt.transform t]

/-- Embedding of `__parse_bounds` (parser.py lines 78-85): the four
bounds
attributes with default 0. -/
def boundsArgs (a : Attrib) : String × String × String × String :=
  (getAttrD a "x" "0", getAttrD a "y" "0",
   getAttrD a "width" "0", getAttrD a "height" "0")

/-- Body of `__parse_circle` (parser.py lines 87-91). -/
def circleCore (a : Attrib) : Except Err (List Stmt) :=
  match fillStmts a with
  | .error e => .error e
  | .ok f =>
    match strokeStmts a with
    | .error e => .error e
    | .ok s => .ok (Stmt.circle a :: (f ++ s))

/-- Body of `__parse_ellipse` (parser.py lines 109-113). -/
def ellipseCore (a : Attrib) : Except Err (List Stmt) :=
  match fillStmts a with
  | .error e => .error e
  | .ok f =>
    match strokeStmts a with
    | .error e => .error e
    | .ok s => .ok (Stmt.ellipse a :: (f ++ s))

/-- Body of `__parse_line` (parser.py lines 153-158); missing point
attributes raise KeyError. -/
def lineCore (a : Attrib) : Except Err (List Stmt) :=
  match lookupA a "x1" with
  | none => .error (.missingKey "x1")
  | some x1 =>
    match lookupA a "y1" with
    | none => .error (.missingKey "y1")
    | some y1 =>
      match lookupA a "x2" with
      | none => .error (.missingKey "x2")
      | some x2 =>
        match lookupA a "y2" with
        | none => .error (.missingKey "y2")
        | some y2 =>
          match fillStmts a with
          | .error e => .error e
          | .ok f =>
            match strokeStmts a with
            | .error e => .error e
            | .ok s => .ok (Stmt.line x1 y1 x2 y2 :: (f ++ s))

/-- Body of `__parse_polygon` (parser.py lines 242-246). -/
def polygonCore (a : Attrib) : Except Err (List Stmt) :=
  match fillStmts a with
  | .error e => .error e
  | .ok f =>
    match strokeStmts a with
    | .error e => .error e
    | .ok s => .ok (Stmt.polygon a :: (f ++ s))

/-- Body of `__parse_polyline` (parser.py lines 248-252). -/
def polylineCore (a : Attrib) : Except Err (List Stmt) :=
  match fillStmts a with
  | .error e => .error e
  | .ok f =>
    match strokeStmts a with
    | .error e => .error e
    | .ok s => .ok (Stmt.polyline a :: (f ++ s))

/-- Body of `__parse_path` (parser.py lines 165-240): the `d` attribute
is tokenized, then fill and stroke are resolved. -/
def pathCore (a : Attrib) : Except Err (List Stmt) :=
  match lookupA a "d" with
  | none => .error (.missingKey "d")
  | some d =>
    match parsePathData d with
    | .error e => .error e
    | .ok toks =>
      match fillStmts a with
      | .error e => .error e
      | .ok f =>
        match strokeStmts a with
        | .error e => .error e
        | .ok s => .ok (toks ++ f ++ s)

/-- Body of `__parse_rect` (parser.py lines 254-260): transform, bounds
(whose decorator always emits, the args dictionary being non-empty),
the rect statement with the same arguments, then fill and stroke. -/
def rectCore (a : Attrib) : Except Err (List Stmt) :=
  let t := transformStmts a
  let b := boundsArgs a
  match fillStmts a with
  | .error e => .error e
  | .ok f =>
    match strokeStmts a with
    | .error e => .error e
    | .ok s =>
      .ok (t ++ [Stmt.bounds b.1 b.2.1 b.2.2.1 b.2.2.2,
                 Stmt.rect b.1 b.2.1 b.2.2.1 b.2.2.2] ++ f ++ s)

/-- Tags skipped without dispatch (parser.py line 25). -/
def ignoredTags : List String := ["comment", "desc", "title", "namedview"]

/-- The merged view of the group-attribute stack (parser.py lines
141-143): an empty dictionary updated with every stacked dictionary in
order, so inner entries override outer ones. -/
def mergeStack (stack : List Attrib) : Attrib :=
  stack.foldl dictUpdate []

/-- Python's default recursion limit: descent deeper than this aborts
the interpreter with RecursionError. -/
def pyRecursionLimit : Nat := 1000

/-- Embedding of the `__parse_element` dispatch plus the per-tag
handlers.  `inherited`
is the merged group dictionary the enclosing `__parse_g` writes into the
element's own attributes before dispatch (parser.py line 147); at the
root level it is empty.  The fuel models Python's recursion limit and
only bounds the depth of the descent. -/
def parseElementF : Nat → List Attrib → Attrib → Element → Except Err (List Stmt)
  | 0, _, _, _ => .error .recursionLimit
  | fuel + 1, stack, inherited, .mk tag attrib0 children =>
    let attrib := dictUpdate attrib0 inherited
    match getElementTag tag with
    | none => .error .tagFormat
    | some t =>
      if t ∈ ignoredTags then .ok []
      else if t.toLower = "g" then
        let stack2 := stack ++ [attrib]
        let merged := mergeStack stack2
        bracket t (children.foldlM
          (fun acc c =>
            (parseElementF fuel stack2 merged c).map (fun ss => acc ++ ss)) [])
      else if t.toLower = "circle" then bracket t (circleCore attrib)
      else if t.toLower = "ellipse" then bracket t (ellipseCore attrib)
      else if t.toLower = "line" then bracket t (lineCore attrib)
      else if t.toLower = "lineargradient" then
        bracket t (.ok [Stmt.defineGradient (lookupA attrib "id")])
      else if t.toLower = "path" then bracket t (pathCore attrib)
      else if t.toLower = "polygon" then bracket t (polygonCore attrib)
      else if t.toLower = "polyline" then bracket t (polylineCore attrib)
      else if t.toLower = "rect" then bracket t (rectCore attrib)
      else if t.toLower = "fill" then fillStmts attrib
      else if t.toLower = "stroke" then strokeStmts attrib
      else if t.toLower = "bounds" then
        let b := boundsArgs attrib
        .ok [Stmt.bounds b.1 b.2.1 b.2.2.1 b.2.2.2]
      else if t.toLower = "transform" then .ok (transformStmts attrib)
      else if t.toLower = "style" ∨ t.toLower = "tree" ∨ t.toLower = "element" then
        .error (.typeError t)
      else .error (.unsupportedTag t)

/-- Embedding of `__parse_tree` (parser.py lines 312-334): root tag
check, canvas
dimensions, then the children in order inside the root bracket. -/
def parseTree (root : Element) : Except Err (List Stmt) :=
  match root with
  | .mk tag attrib children =>
    match getElementTag tag with
    | none => .error .tagFormat
    | some t =>
      if t ≠ "svg" then .error (.structural t)
      else
        let dims : Except Err (String × String) :=
          match lookupA attrib "width", lookupA attrib "height" with
          | some w, some h => .ok (w, h)
          | _, _ =>
            match lookupA attrib "viewBox" with
            | none => .error (.missingKey "viewBox")
            | some vb =>
              match (vb.splitOn " ").get? 2, (vb.splitOn " ").get? 3 with
              | some w, some h => .ok (w, h)
              | _, _ => .error .missingDimension
        match dims with
        | .error e => .error e
        | .ok _ =>
          match children.foldlM
              (fun acc c =>
                (parseElementF pyRecursionLimit [] [] c).map
                  (fun ss => acc ++ ss)) [] with
          | .error e => .error e
          | .ok inner =>
            .ok (Stmt.beginElement t :: (inner ++ [Stmt.endElement t]))

/-! ## Dictionary lemmas -/

/-- Writing one key into a dictionary changes exactly that key's lookup. -/
theorem lookupA_setKey (d : Attrib) (k v q : String) :
    lookupA (setKey d k v) q = if k = q then some v else lookupA d q := by
  induction d with
  | nil =>
    by_cases h : k = q <;> simp [setKey, lookupA, h]
  | cons p rest ih =>
    obtain ⟨k1, v1⟩ := p
    by_cases h1 : k1 = k
    · subst h1
      by_cases h2 : k1 = q <;> simp [setKey, lookupA, h2]
    · by_cases h2 : k1 = q
      · subst h2
        have hkq : ¬(k = k1) := fun e => h1 e.symm
        simp [setKey, h1, lookupA, hkq]
      · simp [setKey, h1, lookupA, h2, ih]

/-! ## Slicing lemmas for the `execute_command` parameter loop -/

/-- Unfolding equation for one loop iteration. -/
theorem chunkFuel_succ_cons (a n : Nat) (p : String) (rest : List String) :
    chunkFuel a (n + 1) (p :: rest) =
      ((p :: rest).take a) :: chunkFuel a n ((p :: rest).drop a) := rfl

/-- Concatenating the slices restores the parameter list. -/
theorem chunkFuel_flatten (a : Nat) (ha : a ≠ 0) :
    ∀ (fuel : Nat) (ps : List String), ps.length ≤ fuel →
      (chunkFuel a fuel ps).flatten = ps := by
  intro fuel
  induction fuel with
  | zero =>
    intro ps h
    cases ps with
    | nil => rfl
    | cons p rest => simp at h
  | succ n ih =>
    intro ps h
    cases ps with
    | nil => rfl
    | cons p rest =>
      have hlen : ((p :: rest).drop a).length ≤ n := by
        simp only [List.length_drop, List.length_cons] at *
        omega
      rw [chunkFuel_succ_cons, List.flatten_cons, ih _ hlen,
        List.take_append_drop]

/-- With a parameter count that is an exact multiple of the arity, the
loop produces exactly `k` slices, each of full arity size. -/
theorem chunkFuel_exact (a : Nat) (ha : a ≠ 0) :
    ∀ (k fuel : Nat) (ps : List String), ps.length = k * a →
      ps.length ≤ fuel →
      (chunkFuel a fuel ps).length = k ∧
        ∀ l ∈ chunkFuel a fuel ps, l.length = a := by
  intro k
  induction k with
  | zero =>
    intro fuel ps hl hf
    have hnil : ps = [] := List.eq_nil_of_length_eq_zero (by simpa using hl)
    subst hnil
    refine ⟨by cases fuel <;> rfl, ?_⟩
    intro l hl2
    cases fuel <;> simp [chunkFuel] at hl2
  | succ k ih =>
    intro fuel ps hl hf
    rw [Nat.succ_mul] at hl
    cases ps with
    | nil => simp at hl; omega
    | cons p rest =>
      cases fuel with
      | zero => simp at hf
      | succ n =>
        have hlen : ((p :: rest).drop a).length = k * a := by
          simp only [List.length_drop, List.length_cons] at *
          omega
        have hfn : ((p :: rest).drop a).length ≤ n := by
          simp only [List.length_drop, List.length_cons] at *
          omega
        have hres := ih n ((p :: rest).drop a) hlen hfn
        rw [chunkFuel_succ_cons]
        constructor
        · simp [hres.1]
        · intro l hmem
          rcases List.mem_cons.mp hmem with h | h
          · subst h
            simp only [List.length_take, List.length_cons] at *
            omega
          · exact hres.2 l h

/-- Restatement of `chunkFuel_exact` for `chunkParams`. -/
theorem chunkParams_exact (a : Nat) (ha : a ≠ 0) (k : Nat) (ps : List String)
    (hl : ps.length = k * a) :
    (chunkParams a ps).length = k ∧ ∀ l ∈ chunkParams a ps, l.length = a :=
  chunkFuel_exact a ha k ps.length ps hl le_rfl

/-- Restatement of `chunkFuel_flatten` for `chunkParams`. -/
theorem chunkParams_flatten (a : Nat) (ha : a ≠ 0) (ps : List String) :
    (chunkParams a ps).flatten = ps :=
  chunkFuel_flatten a ha ps.length ps le_rfl

/-! ## `execute_command` lemmas -/

/-- On a positive exact multiple of the arity, `execute_command` emits
the mapped slices. -/
theorem executeCommand_multiple (c : Char) (ps : List String) (k : Nat)
    (ha : (lookupCommand c).2 ≠ 0) (hk : ps.length = k * (lookupCommand c).2) :
    executeCommand (some c) ps =
      .ok ((chunkParams (lookupCommand c).2 ps).map (Stmt.pathCommand c)) := by
  have hmod : ps.length % (lookupCommand c).2 = 0 := by
    rw [hk]; exact Nat.mul_mod_left k _
  simp [executeCommand, ha, hmod]

/-- Statements the path machinery may emit: the begin/end markers and
path commands whose parameter count equals the command's arity. -/
def emittedPathStmt : Stmt → Prop
  | .beginPathCommands => True
  | .endPathCommands => True
  | .pathCommand c ps => ps.length = (lookupCommand c).2
  | _ => False

/-- Every statement `execute_command` emits is a path command with a
full arity worth of parameters. -/
theorem executeCommand_emits (cmd : Option Char) (ps : List String)
    (new : List Stmt) (h : executeCommand cmd ps = .ok new) :
    ∀ s ∈ new, emittedPathStmt s := by
  cases cmd with
  | none =>
    simp [executeCommand] at h
    subst h; simp
  | some c =>
    by_cases h0 : (lookupCommand c).2 = 0
    · by_cases hps : ps = []
      · simp [executeCommand, h0, hps] at h
        subst h
        intro s hs
        simp at hs
        subst hs
        simp [emittedPathStmt, h0]
      · simp [executeCommand, h0, hps] at h
    · by_cases hm : ps.length % (lookupCommand c).2 = 0
      · simp [executeCommand, h0, hm] at h
        subst h
        intro s hs
        obtain ⟨l, hl, rfl⟩ := List.mem_map.mp hs
        have hdvd : (lookupCommand c).2 ∣ ps.length := Nat.dvd_of_mod_eq_zero hm
        have hlen : ps.length = (ps.length / (lookupCommand c).2) * (lookupCommand c).2 :=
          (Nat.div_mul_cancel hdvd).symm
        have := (chunkParams_exact (lookupCommand c).2 h0 _ ps hlen).2 l hl
        simpa [emittedPathStmt] using this
      · simp [executeCommand, h0, hm] at h

/-- The parameter flush never touches the emitted statements. -/
theorem flushParam_stmts (s : ScanState) : (flushParam s).stmts = s.stmts := by
  unfold flushParam; split <;> rfl

/-- The separator flush never touches the emitted statements. -/
theorem flushParamSep_stmts (s : ScanState) :
    (flushParamSep s).stmts = s.stmts := by
  unfold flushParamSep; split <;> rfl

/-- One scan step only adds full-arity path commands to the trace. -/
theorem scanStep_stmts (s : ScanState) (c : Char) (s2 : ScanState)
    (h : scanStep s c = .ok s2) :
    ∀ x ∈ s2.stmts, x ∈ s.stmts ∨ emittedPathStmt x := by
  unfold scanStep at h
  by_cases h1 : c = '\n' ∨ c = '\t'
  · rw [if_pos h1] at h
    injection h with h
    subst h
    exact fun x hx => Or.inl hx
  · rw [if_neg h1] at h
    by_cases h2 : c ∈ commandChars
    · rw [if_pos h2] at h
      cases hex : executeCommand (flushParam s).command (flushParam s).params with
      | error e => rw [hex] at h; cases h
      | ok new =>
        rw [hex] at h
        injection h with h
        subst h
        intro x hx
        simp only [flushParam_stmts] at hx
        rcases List.mem_append.mp hx with hx1 | hx1
        · exact Or.inl hx1
        · exact Or.inr (executeCommand_emits _ _ new hex x hx1)
    · rw [if_neg h2] at h
      by_cases h3 : c = ' ' ∨ c = ',' ∨ c = '-'
      · rw [if_pos h3] at h
        by_cases h4 : c = '-'
        · rw [if_pos h4] at h
          injection h with h
          subst h
          intro x hx
          simp only [flushParamSep_stmts] at hx
          exact Or.inl hx
        · rw [if_neg h4] at h
          injection h with h
          subst h
          intro x hx
          simp only [flushParamSep_stmts] at hx
          exact Or.inl hx
      · rw [if_neg h3] at h
        by_cases h5 : c = '.'
        · rw [if_pos h5] at h
          by_cases h6 : s.foundDec
          · rw [if_pos h6] at h
            injection h with h
            subst h
            exact fun x hx => Or.inl hx
          · rw [if_neg h6] at h
            injection h with h
            subst h
            exact fun x hx => Or.inl hx
        · rw [if_neg h5] at h
          by_cases h7 : s.command.isSome
          · rw [if_pos h7] at h
            injection h with h
            subst h
            exact fun x hx => Or.inl hx
          · rw [if_neg h7] at h
            injection h with h
            subst h
            exact fun x hx => Or.inl hx

/-- The scan loop only adds full-arity path commands to the trace. -/
theorem scanChars_stmts (cs : List Char) :
    ∀ (s s2 : ScanState), scanChars s cs = .ok s2 →
      ∀ x ∈ s2.stmts, x ∈ s.stmts ∨ emittedPathStmt x := by
  induction cs with
  | nil =>
    intro s s2 h x hx
    injection h with h
    subst h
    exact Or.inl hx
  | cons c rest ih =>
    intro s s2 h x hx
    unfold scanChars at h
    cases hs : scanStep s c with
    | error e => rw [hs] at h; cases h
    | ok s1 =>
      rw [hs] at h
      rcases ih s1 s2 h x hx with h1 | h1
      · exact scanStep_stmts s c s1 hs x h1
      · exact Or.inr h1

/-- Everything the tokenizer of `__parse_path` emits is a begin/end
marker or a path command carrying exactly its command's arity of
parameters. -/
theorem parsePathData_emits (d : String) (stmts : List Stmt)
    (h : parsePathData d = .ok stmts) : ∀ x ∈ stmts, emittedPathStmt x := by
  unfold parsePathData at h
  cases hs : scanChars ⟨[], none, false, [], [Stmt.beginPathCommands]⟩ d.toList with
  | error e => rw [hs] at h; cases h
  | ok s =>
    rw [hs] at h
    dsimp only at h
    cases hex : executeCommand (flushParam s).command (flushParam s).params with
    | error e => rw [hex] at h; cases h
    | ok new =>
      rw [hex] at h
      injection h with h
      subst h
      intro x hx
      rcases List.mem_append.mp hx with hx1 | hx1
      · rcases List.mem_append.mp hx1 with hx2 | hx2
        · rw [flushParam_stmts] at hx2
          rcases scanChars_stmts d.toList _ s hs x hx2 with h1 | h1
          · simp at h1
            subst h1
            trivial
          · exact h1
        · exact executeCommand_emits _ _ new hex x hx2
      · simp at hx1
        subst hx1
        trivial

/-! ## Claim theorems: path tokenization -/

/-- C2: for every command whose accumulated parameter count is a
positive exact multiple `k * arity` of its declared arity,
`execute_command` emits exactly `k` path-command statements, each
carrying one arity-sized slice of the parameters, with all slices of
full size and concatenating back to the original parameter list; and
the input `"M10 10 L20 20 30 30 Z"` yields exactly the token sequence
(M,[10,10]), (L,[20,20]), (L,[30,30]), (Z,[]) between the begin/end
markers. -/
theorem C2_command_repetition :
    (∀ (c : Char) (ps : List String) (k : Nat),
      (lookupCommand c).2 ≠ 0 → 0 < k → ps.length = k * (lookupCommand c).2 →
      executeCommand (some c) ps =
        .ok ((chunkParams (lookupCommand c).2 ps).map (Stmt.pathCommand c)) ∧
      (chunkParams (lookupCommand c).2 ps).length = k ∧
      (∀ l ∈ chunkParams (lookupCommand c).2 ps, l.length = (lookupCommand c).2) ∧
      (chunkParams (lookupCommand c).2 ps).flatten = ps) ∧
    parsePathData "M10 10 L20 20 30 30 Z" =
      .ok [Stmt.beginPathCommands, Stmt.pathCommand 'M' ["10", "10"],
           Stmt.pathCommand 'L' ["20", "20"], Stmt.pathCommand 'L' ["30", "30"],
           Stmt.pathCommand 'Z' [], Stmt.endPathCommands] := by
  constructor
  · intro c ps k ha hk hl
    refine ⟨executeCommand_multiple c ps k ha hl, ?_, ?_, ?_⟩
    · exact (chunkParams_exact (lookupCommand c).2 ha k ps hl).1
    · exact (chunkParams_exact (lookupCommand c).2 ha k ps hl).2
    · exact chunkParams_flatten (lookupCommand c).2 ha ps
  · with_unfolding_all decide

/-- Witness for C2: the theorem applied to the `L` command with the
four accumulated parameters of the testable-property input. -/
theorem C2_command_repetition_witness :
    executeCommand (some 'L') ["20", "20", "30", "30"] =
      .ok [Stmt.pathCommand 'L' ["20", "20"],
           Stmt.pathCommand 'L' ["30", "30"]] := by
  have h := (C2_command_repetition.1 'L' ["20", "20", "30", "30"] 2
    (by decide) (by decide) (by decide)).1
  exact h.trans (by with_unfolding_all decide)

/-- C3 failing input: the unrecognized command letter `X` in
`"M10 10X 20 20"` is silently absorbed into the numeric parameter
`"10X"` and emitted inside an `M` token; compilation does not halt,
contradicting the claim that an unknown letter is a fatal error. -/
theorem C3_unknown_letter_absorbed :
    parsePathData "M10 10X 20 20" =
      .ok [Stmt.beginPathCommands, Stmt.pathCommand 'M' ["10", "10X"],
           Stmt.pathCommand 'M' ["20", "20"], Stmt.endPathCommands] := by
  with_unfolding_all decide

/-- C4 counterexample: `"M1.5.6 7"` does not tokenize to an `M` token
with parameters 1.5, .6, 7 — the three accumulated parameters fail the
arity-2 check of `M` and compilation halts with a fatal arity error. -/
theorem C4_counterexample :
    parsePathData "M1.5.6 7" = .error (Err.pathArity 'M' 2 3) ∧
    ∀ ts : List Stmt, parsePathData "M1.5.6 7" ≠ .ok ts := by
  have herr : parsePathData "M1.5.6 7" = .error (Err.pathArity 'M' 2 3) := by
    with_unfolding_all decide
  refine ⟨herr, ?_⟩
  intro ts h
  rw [herr] at h
  exact Except.noConfusion h

/-- C4 amended: a second `.` while the current number already contains
a decimal point ends the current number and starts a new number
beginning with that `.` (the scan step flushes the accumulated
characters and restarts from `'.'`); `"M1.5.6"` therefore yields one
`M` token with parameters `1.5` and `.6`, while `"M1.5.6 7"` has three
parameters for the arity-2 command `M` and halts with a fatal arity
error rather than producing a token. -/
theorem C4_second_dot_starts_number (s : ScanState) (h : s.foundDec = true) :
    scanStep s '.' =
      .ok { s with params := s.params ++ [String.mk s.paramString],
                   paramString := ['.'] } ∧
    parsePathData "M1.5.6" =
      .ok [Stmt.beginPathCommands, Stmt.pathCommand 'M' ["1.5", ".6"],
           Stmt.endPathCommands] ∧
    parsePathData "M1.5.6 7" = .error (Err.pathArity 'M' 2 3) := by
  refine ⟨?_, by with_unfolding_all decide, by with_unfolding_all decide⟩
  unfold scanStep
  rw [if_neg (by decide), if_neg (by decide), if_neg (by decide),
    if_pos rfl, if_pos h]

/-- Witness for C4: the scan-step clause at a concrete state in the
middle of `"M1.5.6"`, right before the second dot. -/
theorem C4_second_dot_starts_number_witness :
    scanStep { params := ["1.5"], command := some 'M', foundDec := true,
               paramString := ['6'], stmts := [Stmt.beginPathCommands] } '.' =
      .ok { params := ["1.5", "6"], command := some 'M', foundDec := true,
            paramString := ['.'], stmts := [Stmt.beginPathCommands] } := by
  have h := (C4_second_dot_starts_number
    ⟨["1.5"], some 'M', true, ['6'], [Stmt.beginPathCommands]⟩ rfl).1
  exact h.trans (by with_unfolding_all decide)

/-- C7: every token the tokenizer emits has a parameter count that is
an exact multiple of its command's declared arity; an accumulated
parameter list violating the multiple condition for a non-zero-arity
command, or any parameters on a zero-arity command, halts compilation
with the corresponding fatal error. -/
theorem C7_arity_validation :
    (∀ (d : String) (stmts : List Stmt), parsePathData d = .ok stmts →
      ∀ (c : Char) (ps : List String), Stmt.pathCommand c ps ∈ stmts →
        ∃ k, ps.length = k * (lookupCommand c).2) ∧
    (∀ (c : Char) (ps : List String), (lookupCommand c).2 = 0 → ps ≠ [] →
      executeCommand (some c) ps = .error (Err.pathZeroParams c ps)) ∧
    (∀ (c : Char) (ps : List String), (lookupCommand c).2 ≠ 0 →
      ps.length % (lookupCommand c).2 ≠ 0 →
      executeCommand (some c) ps =
        .error (Err.pathArity c (lookupCommand c).2 ps.length)) := by
  refine ⟨?_, ?_, ?_⟩
  · intro d stmts h c ps hmem
    have he := parsePathData_emits d stmts h _ hmem
    refine ⟨1, ?_⟩
    have : ps.length = (lookupCommand c).2 := he
    rw [this, Nat.one_mul]
  · intro c ps h0 hne
    simp [executeCommand, h0, hne]
  · intro c ps h0 hm
    simp [executeCommand, h0, hm]

/-- Witness for C7: the zero-arity clause at `Z` with one parameter
and the multiple clause at `L` with three parameters. -/
theorem C7_arity_validation_witness :
    executeCommand (some 'Z') ["1"] = .error (Err.pathZeroParams 'Z' ["1"]) ∧
    executeCommand (some 'L') ["1", "2", "3"] =
      .error (Err.pathArity 'L' 2 3) := by
  constructor
  · exact C7_arity_validation.2.1 'Z' ["1"] (by decide) (by decide)
  · have h := C7_arity_validation.2.2 'L' ["1", "2", "3"] (by decide) (by decide)
    exact h.trans (by with_unfolding_all decide)

/-! ## Claim theorems: fill and stroke resolution -/

/-- C5: fill resolution returns an absent result (and emits no fill
statement) exactly when the resolved fill value is `"none"` or
`"transparent"`; otherwise it returns the fill with three-digit hex
shorthand expanded and fill-opacity the product of the element's
opacity and fill-opacity values, each defaulting to 1 when absent. -/
theorem C5_fill_resolution (a : Attrib) (o fo : ℚ)
    (ho : floatAttr a "opacity" = some o)
    (hfo : floatAttr a "fill-opacity" = some fo) :
    (parseFill a = .ok none ↔
      (resolvedFill a = "none" ∨ resolvedFill a = "transparent")) ∧
    (fillStmts a = .ok [] ↔
      (resolvedFill a = "none" ∨ resolvedFill a = "transparent")) ∧
    (¬(resolvedFill a = "none" ∨ resolvedFill a = "transparent") →
      parseFill a = .ok (some ⟨expandHexShorthand (resolvedFill a), o * fo⟩) ∧
      fillStmts a =
        .ok [Stmt.fill (expandHexShorthand (resolvedFill a)) (o * fo)]) := by
  by_cases hc : resolvedFill a = "none" ∨ resolvedFill a = "transparent"
  · have h1 : parseFill a = .ok none := by simp [parseFill, hc]
    have h2 : fillStmts a = .ok [] := by simp [fillStmts, h1]
    exact ⟨by simp [h1, hc], by simp [h2, hc], fun hn => absurd hc hn⟩
  · have h1 : parseFill a =
        .ok (some ⟨expandHexShorthand (resolvedFill a), o * fo⟩) := by
      simp [parseFill, hc, ho, hfo]
    have h2 : fillStmts a =
        .ok [Stmt.fill (expandHexShorthand (resolvedFill a)) (o * fo)] := by
      simp [fillStmts, h1]
    refine ⟨?_, ?_, fun _ => ⟨h1, h2⟩⟩
    · rw [h1]; simp [hc]
    · rw [h2]; simp [hc]

/-- Witness for C5: `fill="#abc" opacity="0.5"` resolves to fill
`#aabbcc` with fill-opacity one half, and `fill="none"` emits no fill
statement. -/
theorem C5_fill_resolution_witness :
    parseFill [("fill", "#abc"), ("opacity", "0.5")] =
      .ok (some ⟨"#aabbcc", 1 / 2⟩) ∧
    fillStmts [("fill", "none")] = .ok [] := by
  constructor
  · have h := ((C5_fill_resolution [("fill", "#abc"), ("opacity", "0.5")]
      (1 / 2) 1 (by with_unfolding_all decide)
      (by with_unfolding_all decide)).2.2 (by with_unfolding_all decide)).1
    exact h.trans (by with_unfolding_all decide)
  · exact ((C5_fill_resolution [("fill", "none")] 1 1
      (by with_unfolding_all decide) (by with_unfolding_all decide)).2.1).mpr
      (by with_unfolding_all decide)

/-- Fill resolution reads only the fill, style and opacity keys, so
writing a stroke-width into the attribute dictionary cannot change it. -/
theorem parseFill_setKey_strokeWidth (a : Attrib) (v : String) :
    parseFill (setKey a "stroke-width" v) = parseFill a := by
  have l1 : ∀ q : String, ¬("stroke-width" = q) →
      lookupA (setKey a "stroke-width" v) q = lookupA a q := by
    intro q hq
    rw [lookupA_setKey, if_neg hq]
  simp only [parseFill, resolvedFill, parseStyleValue, floatAttr,
    l1 "fill" (by decide), l1 "style" (by decide),
    l1 "opacity" (by decide), l1 "fill-opacity" (by decide)]

/-- C6: a resolved stroke-width containing a numeric substring is
replaced by its first numeric substring; a resulting value below 1
discards the entire stroke result so no stroke statement is emitted,
while a value of 1 or more keeps the full stroke (color, opacity, all
sub-attributes, and the extracted width); fill resolution is unaffected
by the stroke-width attribute. -/
theorem C6_subpixel_stroke (a : Attrib) (o so : ℚ) (w n : String) (q : ℚ)
    (ho : floatAttr a "opacity" = some o)
    (hso : floatAttr a "stroke-opacity" = some so)
    (hw : strokeSubAttr a "stroke-width" = some w)
    (hn : firstNumber w.toList = some n)
    (hq : parseFloat n = some q) :
    resolvedStrokeWidth a = some n ∧
    (q < 1 → parseStroke a = .ok none ∧ strokeStmts a = .ok []) ∧
    (1 ≤ q →
      parseStroke a = .ok (some
        { stroke := resolvedStrokeColor a, strokeOpacity := o * so,
          linecap := strokeSubAttr a "stroke-linecap",
          linejoin := strokeSubAttr a "stroke-linejoin",
          miterlimit := strokeSubAttr a "stroke-miterlimit",
          width := some n }) ∧
      strokeStmts a = .ok [Stmt.stroke
        { stroke := resolvedStrokeColor a, strokeOpacity := o * so,
          linecap := strokeSubAttr a "stroke-linecap",
          linejoin := strokeSubAttr a "stroke-linejoin",
          miterlimit := strokeSubAttr a "stroke-miterlimit",
          width := some n }]) ∧
    (∀ v, parseFill (setKey a "stroke-width" v) = parseFill a) := by
  have hn2 : firstNumber w.data = some n := hn
  have hrw : resolvedStrokeWidth a = some n := by
    simp [resolvedStrokeWidth, hw, hn2]
  refine ⟨hrw, ?_, ?_, fun v => parseFill_setKey_strokeWidth a v⟩
  · intro hlt
    have h1 : parseStroke a = .ok none := by
      simp [parseStroke, ho, hso, hrw, hq, hlt]
    exact ⟨h1, by simp [strokeStmts, h1]⟩
  · intro hge
    have hnlt : ¬(q < 1) := not_lt.mpr hge
    have h1 : parseStroke a = .ok (some
        { stroke := resolvedStrokeColor a, strokeOpacity := o * so,
          linecap := strokeSubAttr a "stroke-linecap",
          linejoin := strokeSubAttr a "stroke-linejoin",
          miterlimit := strokeSubAttr a "stroke-miterlimit",
          width := some n }) := by
      simp [parseStroke, ho, hso, hrw, hq, hnlt]
    exact ⟨h1, by simp [strokeStmts, h1]⟩

/-- Witness for C6: `stroke-width="0.5px"` drops the whole stroke, and
`stroke-width="1.2px"` keeps it with width `1.2`. -/
theorem C6_subpixel_stroke_witness :
    (parseStroke [("stroke", "black"), ("stroke-width", "0.5px")] = .ok none ∧
      strokeStmts [("stroke", "black"), ("stroke-width", "0.5px")] = .ok []) ∧
    parseStroke [("stroke-width", "1.2px")] = .ok (some
      { stroke := "none", strokeOpacity := 1, linecap := none,
        linejoin := none, miterlimit := none, width := some "1.2" }) := by
  constructor
  · exact (C6_subpixel_stroke [("stroke", "black"), ("stroke-width", "0.5px")]
      1 1 "0.5px" "0.5" (1 / 2)
      (by with_unfolding_all decide) (by with_unfolding_all decide)
      (by with_unfolding_all decide) (by with_unfolding_all decide)
      (by with_unfolding_all decide)).2.1 (by with_unfolding_all decide)
  · have h := ((C6_subpixel_stroke [("stroke-width", "1.2px")]
      1 1 "1.2px" "1.2" (6 / 5)
      (by with_unfolding_all decide) (by with_unfolding_all decide)
      (by with_unfolding_all decide) (by with_unfolding_all decide)
      (by with_unfolding_all decide)).2.2.1 (by with_unfolding_all decide)).1
    exact h.trans (by with_unfolding_all decide)

/-- C10: whenever the stroke-width does not trigger the sub-pixel
suppression (it is absent, or its numeric value is at least 1), stroke
resolution returns a non-empty result whose stroke key is the resolved
stroke color — the literal `"none"` when neither an attribute nor a
style entry provides one — and a stroke statement is emitted. -/
theorem C10_stroke_always_emitted (a : Attrib) (o so : ℚ)
    (ho : floatAttr a "opacity" = some o)
    (hso : floatAttr a "stroke-opacity" = some so)
    (hw : resolvedStrokeWidth a = none ∨
      ∃ w q, resolvedStrokeWidth a = some w ∧ parseFloat w = some q ∧ 1 ≤ q) :
    ∃ args : StrokeArgs,
      parseStroke a = .ok (some args) ∧
      args.stroke = resolvedStrokeColor a ∧
      strokeStmts a = .ok [Stmt.stroke args] ∧
      (lookupA a "stroke" = none → parseStyleValue a "stroke" = "none" →
        args.stroke = "none") := by
  have hcolor : ∀ args : StrokeArgs, args.stroke = resolvedStrokeColor a →
      lookupA a "stroke" = none → parseStyleValue a "stroke" = "none" →
      args.stroke = "none" := by
    intro args he h1 h2
    rw [he]
    simp [resolvedStrokeColor, h1, h2]
  rcases hw with hw | ⟨w, q, hw, hq, hge⟩
  · have h1 : parseStroke a = .ok (some ⟨resolvedStrokeColor a, o * so,
        strokeSubAttr a "stroke-linecap", strokeSubAttr a "stroke-linejoin",
        strokeSubAttr a "stroke-miterlimit", none⟩) := by
      simp [parseStroke, ho, hso, hw]
    exact ⟨_, h1, rfl, by simp [strokeStmts, h1], hcolor _ rfl⟩
  · have hnlt : ¬(q < 1) := not_lt.mpr hge
    have h1 : parseStroke a = .ok (some ⟨resolvedStrokeColor a, o * so,
        strokeSubAttr a "stroke-linecap", strokeSubAttr a "stroke-linejoin",
        strokeSubAttr a "stroke-miterlimit", some w⟩) := by
      simp [parseStroke, ho, hso, hw, hq, hnlt]
    exact ⟨_, h1, rfl, by simp [strokeStmts, h1], hcolor _ rfl⟩

/-- Witness for C10: an element with no attributes at all still yields
a stroke result with the literal color `"none"` and a statement. -/
theorem C10_stroke_always_emitted_witness :
    ∃ args : StrokeArgs,
      parseStroke [] = .ok (some args) ∧ args.stroke = "none" ∧
      strokeStmts [] = .ok [Stmt.stroke args] := by
  obtain ⟨args, h1, h2, h3, h4⟩ := C10_stroke_always_emitted [] 1 1
    (by with_unfolding_all decide) (by with_unfolding_all decide)
    (Or.inl (by with_unfolding_all decide))
  exact ⟨args, h1, h4 (by with_unfolding_all decide)
    (by with_unfolding_all decide), h3⟩

/-! ## Claim theorems: tree walking and statement emission -/

/-- Fill resolution emits no transform statement. -/
theorem fillStmts_no_transform (a : Attrib) (f : List Stmt)
    (hf : fillStmts a = .ok f) : ∀ x ∈ f, x.isTransform = false := by
  unfold fillStmts at hf
  cases hp : parseFill a with
  | error e => rw [hp] at hf; cases hf
  | ok o =>
    rw [hp] at hf
    cases o with
    | none =>
      injection hf with hf
      subst hf
      intro x hx
      simp at hx
    | some r =>
      injection hf with hf
      subst hf
      intro x hx
      simp at hx
      subst hx
      rfl

/-- Stroke resolution emits no transform statement. -/
theorem strokeStmts_no_transform (a : Attrib) (f : List Stmt)
    (hf : strokeStmts a = .ok f) : ∀ x ∈ f, x.isTransform = false := by
  unfold strokeStmts at hf
  cases hp : parseStroke a with
  | error e => rw [hp] at hf; cases hf
  | ok o =>
    rw [hp] at hf
    cases o with
    | none =>
      injection hf with hf
      subst hf
      intro x hx
      simp at hx
    | some r =>
      injection hf with hf
      subst hf
      intro x hx
      simp at hx
      subst hx
      rfl

/-- The path tokenizer emits no transform statement. -/
theorem parsePathData_no_transform (d : String) (ts : List Stmt)
    (h : parsePathData d = .ok ts) : ∀ x ∈ ts, x.isTransform = false := by
  intro x hx
  have he := parsePathData_emits d ts h x hx
  cases x <;> first | rfl | exact absurd he (by simp [emittedPathStmt])

/-- Fill and stroke tails of a shape handler contain no transform. -/
theorem fillStrokeTail_no_transform (a : Attrib) (f s : List Stmt)
    (hf : fillStmts a = .ok f) (hs : strokeStmts a = .ok s) :
    ∀ x ∈ f ++ s, x.isTransform = false := by
  intro x hx
  rcases List.mem_append.mp hx with h1 | h1
  · exact fillStmts_no_transform a f hf x h1
  · exact strokeStmts_no_transform a s hs x h1

/-- C9: the transform resolver is invoked solely by the rect handler —
the circle, ellipse, line, polygon, polyline and path handlers never
emit a transform statement, even when the element carries a `transform`
attribute, while the rect handler emits the attribute's transform
statement whenever the attribute is present. -/
theorem C9_transform_only_rect :
    (∀ (a : Attrib) (ss : List Stmt), circleCore a = .ok ss →
      ∀ x ∈ ss, x.isTransform = false) ∧
    (∀ (a : Attrib) (ss : List Stmt), ellipseCore a = .ok ss →
      ∀ x ∈ ss, x.isTransform = false) ∧
    (∀ (a : Attrib) (ss : List Stmt), lineCore a = .ok ss →
      ∀ x ∈ ss, x.isTransform = false) ∧
    (∀ (a : Attrib) (ss : List Stmt), polygonCore a = .ok ss →
      ∀ x ∈ ss, x.isTransform = false) ∧
    (∀ (a : Attrib) (ss : List Stmt), polylineCore a = .ok ss →
      ∀ x ∈ ss, x.isTransform = false) ∧
    (∀ (a : Attrib) (ss : List Stmt), pathCore a = .ok ss →
      ∀ x ∈ ss, x.isTransform = false) ∧
    (∀ (a : Attrib) (t : String), lookupA a "transform" = some t →
      transformStmts a = [Stmt.transform t] ∧
      ∀ ss : List Stmt, rectCore a = .ok ss → Stmt.transform t ∈ ss) := by
  refine ⟨?_, ?_, ?_, ?_, ?_, ?_, ?_⟩
  · intro a ss h
    unfold circleCore at h
    cases hf : fillStmts a with
    | error e => rw [hf] at h; cases h
    | ok f =>
      rw [hf] at h
      cases hs : strokeStmts a with
      | error e => rw [hs] at h; cases h
      | ok s =>
        rw [hs] at h
        injection h with h
        subst h
        intro x hx
        rcases List.mem_cons.mp hx with rfl | hx1
        · rfl
        · exact fillStrokeTail_no_transform a f s hf hs x hx1
  · intro a ss h
    unfold ellipseCore at h
    cases hf : fillStmts a with
    | error e => rw [hf] at h; cases h
    | ok f =>
      rw [hf] at h
      cases hs : strokeStmts a with
      | error e => rw [hs] at h; cases h
      | ok s =>
        rw [hs] at h
        injection h with h
        subst h
        intro x hx
        rcases List.mem_cons.mp hx with rfl | hx1
        · rfl
        · exact fillStrokeTail_no_transform a f s hf hs x hx1
  · intro a ss h
    unfold lineCore at h
    cases hx1 : lookupA a "x1" with
    | none => rw [hx1] at h; cases h
    | some x1 =>
      rw [hx1] at h
      cases hy1 : lookupA a "y1" with
      | none => rw [hy1] at h; cases h
      | some y1 =>
        rw [hy1] at h
        cases hx2 : lookupA a "x2" with
        | none => rw [hx2] at h; cases h
        | some x2 =>
          rw [hx2] at h
          cases hy2 : lookupA a "y2" with
          | none => rw [hy2] at h; cases h
          | some y2 =>
            rw [hy2] at h
            cases hf : fillStmts a with
            | error e => rw [hf] at h; cases h
            | ok f =>
              rw [hf] at h
              cases hs : strokeStmts a with
              | error e => rw [hs] at h; cases h
              | ok s =>
                rw [hs] at h
                injection h with h
                subst h
                intro x hx
                rcases List.mem_cons.mp hx with rfl | hx1
                · rfl
                · exact fillStrokeTail_no_transform a f s hf hs x hx1
  · intro a ss h
    unfold polygonCore at h
    cases hf : fillStmts a with
    | error e => rw [hf] at h; cases h
    | ok f =>
      rw [hf] at h
      cases hs : strokeStmts a with
      | error e => rw [hs] at h; cases h
      | ok s =>
        rw [hs] at h
        injection h with h
        subst h
        intro x hx
        rcases List.mem_cons.mp hx with rfl | hx1
        · rfl
        · exact fillStrokeTail_no_transform a f s hf hs x hx1
  · intro a ss h
    unfold polylineCore at h
    cases hf : fillStmts a with
    | error e => rw [hf] at h; cases h
    | ok f =>
      rw [hf] at h
      cases hs : strokeStmts a with
      | error e => rw [hs] at h; cases h
      | ok s =>
        rw [hs] at h
        injection h with h
        subst h
        intro x hx
        rcases List.mem_cons.mp hx with rfl | hx1
        · rfl
        · exact fillStrokeTail_no_transform a f s hf hs x hx1
  · intro a ss h
    unfold pathCore at h
    cases hd : lookupA a "d" with
    | none => rw [hd] at h; cases h
    | some d =>
      rw [hd] at h
      dsimp only at h
      cases ht : parsePathData d with
      | error e => rw [ht] at h; cases h
      | ok toks =>
        rw [ht] at h
        cases hf : fillStmts a with
        | error e => rw [hf] at h; cases h
        | ok f =>
          rw [hf] at h
          cases hs : strokeStmts a with
          | error e => rw [hs] at h; cases h
          | ok s =>
            rw [hs] at h
            injection h with h
            subst h
            intro x hx
            rcases List.mem_append.mp hx with hx1 | hx1
            · rcases List.mem_append.mp hx1 with hx2 | hx2
              · exact parsePathData_no_transform d toks ht x hx2
              · exact fillStmts_no_transform a f hf x hx2
            · exact strokeStmts_no_transform a s hs x hx1
  · intro a t ht
    have htr : transformStmts a = [Stmt.transform t] := by
      simp [transformStmts, ht]
    refine ⟨htr, ?_⟩
    intro ss h
    unfold rectCore at h
    cases hf : fillStmts a with
    | error e => rw [hf] at h; cases h
    | ok f =>
      rw [hf] at h
      cases hs : strokeStmts a with
      | error e => rw [hs] at h; cases h
      | ok s =>
        rw [hs] at h
        injection h with h
        subst h
        rw [htr]
        simp

/-- Witness for C9: a circle with a transform attribute emits no
transform statement, while a rect with the same attribute does. -/
theorem C9_transform_only_rect_witness :
    (∀ x ∈ [Stmt.circle [("transform", "rotate(30)")],
        Stmt.stroke ⟨"none", 1, none, none, none, none⟩],
      x.isTransform = false) ∧
    Stmt.transform "rotate(30)" ∈
      [Stmt.transform "rotate(30)", Stmt.bounds "0" "0" "0" "0",
       Stmt.rect "0" "0" "0" "0",
       Stmt.stroke ⟨"none", 1, none, none, none, none⟩] := by
  constructor
  · exact C9_transform_only_rect.1 [("transform", "rotate(30)")] _
      (by with_unfolding_all decide)
  · exact (C9_transform_only_rect.2.2.2.2.2.2 [("transform", "rotate(30)")]
      "rotate(30)" (by with_unfolding_all decide)).2 _
      (by with_unfolding_all decide)

/-- C8: a document whose root element's namespace-stripped tag is not
`svg` halts immediately with a fatal structural error before any child
is processed, and no statement list is produced. -/
theorem C8_root_must_be_svg (root : Element) (t : String)
    (h1 : getElementTag root.tagName = some t) (h2 : t ≠ "svg") :
    parseTree root = .error (Err.structural t) ∧
    ∀ ss : List Stmt, parseTree root ≠ .ok ss := by
  obtain ⟨tag, attrib, children⟩ := root
  simp only [Element.tagName] at h1
  have herr : parseTree (.mk tag attrib children) = .error (Err.structural t) := by
    unfold parseTree
    dsimp only
    rw [h1]
    dsimp only
    rw [if_pos h2]
  refine ⟨herr, ?_⟩
  intro ss h
  rw [herr] at h
  exact Except.noConfusion h

/-- Witness for C8: a root tagged `rect` is rejected with the
structural error and yields no statements. -/
theorem C8_root_must_be_svg_witness :
    parseTree (.mk "{ns}rect" [("width", "10"), ("height", "10")] []) =
      .error (Err.structural "rect") :=
  (C8_root_must_be_svg (.mk "{ns}rect" [("width", "10"), ("height", "10")] [])
    "rect" (by with_unfolding_all decide) (by with_unfolding_all decide)).1

/-- The element tree of the C1 failing input: a group carrying
`fill="red"` around a rect carrying its own `fill="blue"`. -/
def c1Tree : Element :=
  .mk "{s}svg" [("width", "40"), ("height", "40")]
    [.mk "{s}g" [("fill", "red")]
      [.mk "{s}rect" [("fill", "blue")] []]]

/-- C1 failing input: the cascade of `__parse_g` writes the group
attributes into the child with `dict.update`, which overwrites the
child's own `fill="blue"` with the group's `fill="red"`; the compiled
document therefore emits `fill red`, contradicting the claim (and the
spec invariant) that a child's own attribute is never replaced. -/
theorem C1_group_overwrites_local_attribute :
    dictUpdate [("fill", "blue")] [("fill", "red")] = [("fill", "red")] ∧
    parseTree c1Tree = .ok [Stmt.beginElement "svg",
      Stmt.beginElement "g", Stmt.beginElement "rect",
      Stmt.bounds "0" "0" "0" "0", Stmt.rect "0" "0" "0" "0",
      Stmt.fill "red" 1,
      Stmt.stroke ⟨"none", 1, none, none, none, none⟩,
      Stmt.endElement "rect", Stmt.endElement "g", Stmt.endElement "svg"] ∧
    (∀ ss : List Stmt, parseTree c1Tree = .ok ss → Stmt.fill "blue" 1 ∉ ss) := by
  refine ⟨by with_unfolding_all decide, by with_unfolding_all decide, ?_⟩
  intro ss h
  have heq : parseTree c1Tree = .ok [Stmt.beginElement "svg",
      Stmt.beginElement "g", Stmt.beginElement "rect",
      Stmt.bounds "0" "0" "0" "0", Stmt.rect "0" "0" "0" "0",
      Stmt.fill "red" 1,
      Stmt.stroke ⟨"none", 1, none, none, none, none⟩,
      Stmt.endElement "rect", Stmt.endElement "g", Stmt.endElement "svg"] := by
    with_unfolding_all decide
  rw [heq] at h
  injection h with h
  subst h
  with_unfolding_all decide
